import Mathlib

/-!
Verification of the kolosys/timecapsule capsule store engine.

The Go source (timecapsule.go, storage.go) is embedded shallowly:
- `time.Time` and `time.Duration` become `Int` (an absolute timestamp /
  a signed duration); the Go comparison `now.Before(u)` is `now < u` and
  `time.Now().Add(d)` is `now + d`.  Each operation that calls `time.Now()`
  takes the current time as an explicit `now : Int` parameter.
- `context.Context` becomes `Ctx`, a record holding whether the context is
  already cancelled; `ctx.Err()` returns `contextCanceled` exactly when it is.
- the Go map `map[string]Capsule[T]` becomes an association list
  `CapsuleMap T` with lookup `mapGet`, upsert `mapSet` and removal `mapDel`
  (a Go map holds at most one entry per key; `countKey` counts entries so
  that uniqueness can be stated).
- state-mutating methods return the result together with the new map;
  read-only methods (`Open`, `Peek`, `Exists`) return only their result,
  which is the embedding of the fact that they take only a read lock and
  never write the map.
- `WaitForUnlock` races a one-shot timer against cancellation.  The wait
  itself is embedded by two extra parameters: `cancelDuringWait` tells which
  arm of the `select` wins, and `mWake` is the map as it stands when the
  timer fires (other goroutines may have mutated it during the wait).  The
  timer fires at the snapshotted `metadata.unlockTime`, which is the time at
  which the final `Open` runs.
-/

namespace TimeCapsule

/-- The error values of the package (timecapsule.go lines 11-15), together
with the cancellation error surfaced by `ctx.Err()` and an opaque codec
failure (codec errors are propagated unchanged by the core). -/
inductive TCError where
  | capsuleNotFound
  | capsuleLocked
  | invalidKey
  | contextCanceled
  | codecError
  deriving DecidableEq, Repr

/-- `Capsule[T]` (timecapsule.go lines 18-22): a time-locked value. -/
structure Capsule (T : Type) where
  value : T
  unlockTime : Int
  createdAt : Int
  deriving DecidableEq, Repr

/-- `Metadata` (timecapsule.go lines 25-29): information about a capsule
without exposing its value. -/
structure Metadata where
  unlockTime : Int
  createdAt : Int
  isLocked : Bool
  deriving DecidableEq, Repr

/-- The execution context: `canceled` says whether `ctx.Err()` is non-nil. -/
structure Ctx where
  canceled : Bool
  deriving DecidableEq, Repr

/-- The key-to-record mapping `map[string]Capsule[T]`. -/
abbrev CapsuleMap (T : Type) := List (String × Capsule T)

/-- Map lookup: `capsule, exists := tc.capsules[key]`. -/
def mapGet {T : Type} : CapsuleMap T → String → Option (Capsule T)
  | [], _ => none
  | (k2, c) :: rest, k => if k2 = k then some c else mapGet rest k

/-- Map upsert: `tc.capsules[key] = capsule`. -/
def mapSet {T : Type} : CapsuleMap T → String → Capsule T → CapsuleMap T
  | [], k, c => [(k, c)]
  | (k2, c2) :: rest, k, c =>
      if k2 = k then (k, c) :: rest else (k2, c2) :: mapSet rest k c

/-- Map removal: `delete(tc.capsules, key)`. -/
def mapDel {T : Type} : CapsuleMap T → String → CapsuleMap T
  | [], _ => []
  | (k2, c) :: rest, k => if k2 = k then rest else (k2, c) :: mapDel rest k

/-- Number of entries stored under a key (a well-formed Go map has at most
one). -/
def countKey {T : Type} : CapsuleMap T → String → Nat
  | [], _ => 0
  | (k2, _) :: rest, k => (if k2 = k then 1 else 0) + countKey rest k

namespace MemoryTimeCapsule

/-- `MemoryTimeCapsule.Store` (timecapsule.go lines 56-76): check the
context, validate the key, then upsert `{value, unlockTime, createdAt: now}`
under `key`. -/
def Store {T : Type} (ctx : Ctx) (now : Int) (m : CapsuleMap T) (key : String)
    (value : T) (unlockTime : Int) : Except TCError Unit × CapsuleMap T :=
  if ctx.canceled then (.error .contextCanceled, m)
  else if key = "" then (.error .invalidKey, m)
  else (.ok (), mapSet m key ⟨value, unlockTime, now⟩)

/-- `MemoryTimeCapsule.Open` (timecapsule.go lines 79-105): returns the value
if the record exists and `now` is not before its unlock time; read-only. -/
def Open {T : Type} (ctx : Ctx) (now : Int) (m : CapsuleMap T) (key : String) :
    Except TCError T :=
  if ctx.canceled then .error .contextCanceled
  else if key = "" then .error .invalidKey
  else
    match mapGet m key with
    | none => .error .capsuleNotFound
    | some capsule =>
        if now < capsule.unlockTime then .error .capsuleLocked
        else .ok capsule.value

/-- `MemoryTimeCapsule.Peek` (timecapsule.go lines 108-131): metadata with
`IsLocked` recomputed from the current time; read-only, value-free. -/
def Peek {T : Type} (ctx : Ctx) (now : Int) (m : CapsuleMap T) (key : String) :
    Except TCError Metadata :=
  if ctx.canceled then .error .contextCanceled
  else if key = "" then .error .invalidKey
  else
    match mapGet m key with
    | none => .error .capsuleNotFound
    | some capsule =>
        .ok ⟨capsule.unlockTime, capsule.createdAt, decide (now < capsule.unlockTime)⟩

/-- `MemoryTimeCapsule.Delay` (timecapsule.go lines 134-154): replaces the
record's unlock time with `time.Now().Add(delay)`. -/
def Delay {T : Type} (ctx : Ctx) (now : Int) (m : CapsuleMap T) (key : String)
    (delay : Int) : Except TCError Unit × CapsuleMap T :=
  if ctx.canceled then (.error .contextCanceled, m)
  else if key = "" then (.error .invalidKey, m)
  else
    match mapGet m key with
    | none => (.error .capsuleNotFound, m)
    | some capsule =>
        (.ok (), mapSet m key ⟨capsule.value, now + delay, capsule.createdAt⟩)

/-- `MemoryTimeCapsule.Delete` (timecapsule.go lines 157-175). -/
def Delete {T : Type} (ctx : Ctx) (m : CapsuleMap T) (key : String) :
    Except TCError Unit × CapsuleMap T :=
  if ctx.canceled then (.error .contextCanceled, m)
  else if key = "" then (.error .invalidKey, m)
  else
    match mapGet m key with
    | none => (.error .capsuleNotFound, m)
    | some _ => (.ok (), mapDel m key)

/-- `MemoryTimeCapsule.Exists` (timecapsule.go lines 178-192): `false` on a
cancelled context or empty key, otherwise presence in the map.  It never
consults the clock, so lock state is irrelevant. -/
def Exists {T : Type} (ctx : Ctx) (m : CapsuleMap T) (key : String) : Bool :=
  if ctx.canceled then false
  else if key = "" then false
  else (mapGet m key).isSome

/-- `MemoryTimeCapsule.WaitForUnlock` (timecapsule.go lines 195-224):
entry cancellation check, one `Peek`, immediate `Open` if unlocked,
otherwise a single timer armed for `unlockTime - now` raced against
cancellation, then a single `Open` against the map as it stands at wake
(`mWake`); no loop. -/
def WaitForUnlock {T : Type} (ctx : Ctx) (now : Int) (m0 : CapsuleMap T)
    (key : String) (cancelDuringWait : Bool) (mWake : CapsuleMap T) :
    Except TCError T :=
  if ctx.canceled then .error .contextCanceled
  else
    match Peek ctx now m0 key with
    | .error e => .error e
    | .ok metadata =>
        if !metadata.isLocked then Open ctx now m0 key
        else if cancelDuringWait then .error .contextCanceled
        else Open ctx metadata.unlockTime mWake key

end MemoryTimeCapsule

/-- `Codec[T]` (storage.go lines 36-39): serialize/deserialize values; both
directions may fail and their errors are propagated unchanged. -/
structure Codec (T B : Type) where
  encode : T → Except TCError B
  decode : B → Except TCError T

/-- Modelled from the spec: the repository declares the `Storage` backend
only as an interface (storage.go lines 9-27) and implements no concrete
backend.  Per the specification the backend exposes the same operation set
as the capsule store over pre-serialized byte payloads — store upserts with
`createdAt` set to the current time, open succeeds only on an unlocked
capsule, peek reports value-free metadata — so the canonical model backend
is the in-memory engine instantiated at the byte-payload type `B`.
`SpecStorage.Store` is the backend's `store(key, bytes, unlockTime)`. -/
def SpecStorage.Store {B : Type} (ctx : Ctx) (now : Int) (s : CapsuleMap B)
    (key : String) (data : B) (unlockTime : Int) :
    Except TCError Unit × CapsuleMap B :=
  MemoryTimeCapsule.Store ctx now s key data unlockTime

/-- Modelled from the spec: the backend's `open(key) → bytes`, which succeeds
only on an existing, unlocked capsule. -/
def SpecStorage.Open {B : Type} (ctx : Ctx) (now : Int) (s : CapsuleMap B)
    (key : String) : Except TCError B :=
  MemoryTimeCapsule.Open ctx now s key

/-- Modelled from the spec: the backend's `peek(key) → Metadata`. -/
def SpecStorage.Peek {B : Type} (ctx : Ctx) (now : Int) (s : CapsuleMap B)
    (key : String) : Except TCError Metadata :=
  MemoryTimeCapsule.Peek ctx now s key

/-- Modelled from the spec: the backend's `delete(key)`. -/
def SpecStorage.Delete {B : Type} (ctx : Ctx) (s : CapsuleMap B)
    (key : String) : Except TCError Unit × CapsuleMap B :=
  MemoryTimeCapsule.Delete ctx s key

/-- Modelled from the spec: the backend's `exists(key) → bool`. -/
def SpecStorage.IsStored {B : Type} (ctx : Ctx) (s : CapsuleMap B)
    (key : String) : Bool :=
  MemoryTimeCapsule.Exists ctx s key

namespace PersistentTimeCapsule

/-- `PersistentTimeCapsule.Store` (storage.go lines 50-65): context and key
checks, encode, then delegate to the backend store. -/
def Store {T B : Type} (cd : Codec T B) (ctx : Ctx) (now : Int)
    (s : CapsuleMap B) (key : String) (value : T) (unlockTime : Int) :
    Except TCError Unit × CapsuleMap B :=
  if ctx.canceled then (.error .contextCanceled, s)
  else if key = "" then (.error .invalidKey, s)
  else
    match cd.encode value with
    | .error e => (.error e, s)
    | .ok data => SpecStorage.Store ctx now s key data unlockTime

/-- `PersistentTimeCapsule.Open` (storage.go lines 68-86): context and key
checks, backend open, then decode. -/
def Open {T B : Type} (cd : Codec T B) (ctx : Ctx) (now : Int)
    (s : CapsuleMap B) (key : String) : Except TCError T :=
  if ctx.canceled then .error .contextCanceled
  else if key = "" then .error .invalidKey
  else
    match SpecStorage.Open ctx now s key with
    | .error e => .error e
    | .ok data => cd.decode data

/-- `PersistentTimeCapsule.Peek` (storage.go lines 89-99). -/
def Peek {B : Type} (ctx : Ctx) (now : Int) (s : CapsuleMap B)
    (key : String) : Except TCError Metadata :=
  if ctx.canceled then .error .contextCanceled
  else if key = "" then .error .invalidKey
  else SpecStorage.Peek ctx now s key

/-- `PersistentTimeCapsule.Delay` (storage.go lines 102-128): a non-atomic
peek (existence check), then backend open to read the current bytes, then a
backend re-store under `time.Now().Add(delay)`.  The codec is not used. -/
def Delay {B : Type} (ctx : Ctx) (now : Int) (s : CapsuleMap B)
    (key : String) (delay : Int) : Except TCError Unit × CapsuleMap B :=
  if ctx.canceled then (.error .contextCanceled, s)
  else if key = "" then (.error .invalidKey, s)
  else
    match SpecStorage.Peek ctx now s key with
    | .error e => (.error e, s)
    | .ok _ =>
        match SpecStorage.Open ctx now s key with
        | .error e => (.error e, s)
        | .ok data => SpecStorage.Store ctx now s key data (now + delay)

/-- `PersistentTimeCapsule.Delete` (storage.go lines 131-141). -/
def Delete {B : Type} (ctx : Ctx) (s : CapsuleMap B) (key : String) :
    Except TCError Unit × CapsuleMap B :=
  if ctx.canceled then (.error .contextCanceled, s)
  else if key = "" then (.error .invalidKey, s)
  else SpecStorage.Delete ctx s key

/-- `PersistentTimeCapsule.Exists` (storage.go lines 144-154). -/
def Exists {B : Type} (ctx : Ctx) (s : CapsuleMap B) (key : String) : Bool :=
  if ctx.canceled then false
  else if key = "" then false
  else SpecStorage.IsStored ctx s key

/-- `PersistentTimeCapsule.WaitForUnlock` (storage.go lines 157-186): same
shape as the in-memory variant, delegating to this type's `Peek`/`Open`. -/
def WaitForUnlock {T B : Type} (cd : Codec T B) (ctx : Ctx) (now : Int)
    (s0 : CapsuleMap B) (key : String) (cancelDuringWait : Bool)
    (sWake : CapsuleMap B) : Except TCError T :=
  if ctx.canceled then .error .contextCanceled
  else
    match Peek ctx now s0 key with
    | .error e => .error e
    | .ok metadata =>
        if !metadata.isLocked then Open cd ctx now s0 key
        else if cancelDuringWait then .error .contextCanceled
        else Open cd ctx metadata.unlockTime sWake key

end PersistentTimeCapsule

/-- A concrete codec on `Nat` values and `List Nat` payloads, used to
instantiate the persistent store at concrete inputs. -/
def natCodec : Codec Nat (List Nat) :=
  ⟨fun v => .ok [v],
   fun data =>
     match data with
     | [v] => .ok v
     | _ => .error .codecError⟩

/-! ## Map lemmas -/

/-- Upserting a key makes it the value found by lookup. -/
theorem mapGet_mapSet_self {T : Type} (m : CapsuleMap T) (k : String)
    (c : Capsule T) : mapGet (mapSet m k c) k = some c := by
  induction m with
  | nil => simp [mapSet, mapGet]
  | cons p rest ih =>
    obtain ⟨k2, c2⟩ := p
    by_cases h : k2 = k
    · simp [mapSet, mapGet, h]
    · simp [mapSet, mapGet, h, ih]

/-- Upserting one key leaves lookups of other keys unchanged. -/
theorem mapGet_mapSet_ne {T : Type} (m : CapsuleMap T) (k k2 : String)
    (c : Capsule T) (h : k2 ≠ k) :
    mapGet (mapSet m k c) k2 = mapGet m k2 := by
  induction m with
  | nil => simp [mapSet, mapGet, Ne.symm h]
  | cons p rest ih =>
    obtain ⟨k3, c3⟩ := p
    by_cases h3 : k3 = k
    · subst h3
      simp [mapSet, mapGet, Ne.symm h]
    · by_cases h4 : k3 = k2
      · subst h4
        simp [mapSet, mapGet, h3]
      · simp [mapSet, mapGet, h3, h4, ih]

/-- Upserting a key that occurred at most once leaves it occurring exactly
once. -/
theorem countKey_mapSet {T : Type} (m : CapsuleMap T) (k : String)
    (c : Capsule T) (h : countKey m k ≤ 1) :
    countKey (mapSet m k c) k = 1 := by
  induction m with
  | nil => simp [mapSet, countKey]
  | cons p rest ih =>
    obtain ⟨k2, c2⟩ := p
    by_cases hk : k2 = k
    · have h0 : countKey rest k = 0 := by
        simp [countKey, hk] at h
        omega
      simp [mapSet, countKey, hk, h0]
    · have h1 : countKey rest k ≤ 1 := by
        simp [countKey, hk] at h
        omega
      simp [mapSet, countKey, hk, ih h1]

/-! ## Unfolding lemmas for the operations -/

/-- A successful in-memory `Delay` rewrites exactly the addressed record,
keeping its value and creation time. -/
theorem memDelay_found {T : Type} (ctx : Ctx) (now d : Int) (m : CapsuleMap T)
    (key : String) (cap : Capsule T) (hctx : ctx.canceled = false)
    (hk : key ≠ "") (hget : mapGet m key = some cap) :
    MemoryTimeCapsule.Delay ctx now m key d
      = (.ok (), mapSet m key ⟨cap.value, now + d, cap.createdAt⟩) := by
  simp [MemoryTimeCapsule.Delay, hctx, hk, hget]

/-- If `Peek` succeeds, the context was not cancelled. -/
theorem memPeek_ok_ctx {T : Type} {ctx : Ctx} {now : Int} {m : CapsuleMap T}
    {key : String} {md : Metadata}
    (h : MemoryTimeCapsule.Peek ctx now m key = .ok md) :
    ctx.canceled = false := by
  by_cases hc : ctx.canceled = true
  · simp [MemoryTimeCapsule.Peek, hc] at h
  · simpa using hc

/-- If `Peek` succeeds, the key is non-empty. -/
theorem memPeek_ok_key {T : Type} {ctx : Ctx} {now : Int} {m : CapsuleMap T}
    {key : String} {md : Metadata}
    (h : MemoryTimeCapsule.Peek ctx now m key = .ok md) :
    key ≠ "" := by
  intro hk
  have hc := memPeek_ok_ctx h
  simp [MemoryTimeCapsule.Peek, hc, hk] at h

/-- A successful `Peek` comes from a record in the map and reports exactly
its unlock and creation times, with the lock state recomputed from `now`. -/
theorem memPeek_ok_get {T : Type} {ctx : Ctx} {now : Int} {m : CapsuleMap T}
    {key : String} {md : Metadata}
    (h : MemoryTimeCapsule.Peek ctx now m key = .ok md) :
    ∃ cap, mapGet m key = some cap ∧
      md = ⟨cap.unlockTime, cap.createdAt, decide (now < cap.unlockTime)⟩ := by
  have hc := memPeek_ok_ctx h
  have hk := memPeek_ok_key h
  rcases hget : mapGet m key with _ | cap
  · simp [MemoryTimeCapsule.Peek, hc, hk, hget] at h
  · refine ⟨cap, rfl, ?_⟩
    simp [MemoryTimeCapsule.Peek, hc, hk, hget] at h
    exact h.symm

/-! ## Claims -/

/-- C1: with a non-cancelled context and a non-empty key, `Store(k, v, u)`
followed by `Open(k)` at any time `now2 ≥ u` returns exactly `v`; `Open`
returns `InvalidKey` on the empty key, `CapsuleNotFound` when no record
exists under the key, and `CapsuleLocked` when a record exists but
`now2 < unlockTime`.  `Open` returns no updated map — the embedding of the
fact that it never mutates the store. -/
theorem C1_open_store_roundtrip {T : Type} (ctx : Ctx) (tStore now2 u : Int)
    (m : CapsuleMap T) (key : String) (v : T)
    (hctx : ctx.canceled = false) (hk : key ≠ "") :
    (u ≤ now2 →
      MemoryTimeCapsule.Open ctx now2
          (MemoryTimeCapsule.Store ctx tStore m key v u).2 key = .ok v) ∧
    MemoryTimeCapsule.Open (T := T) ctx now2 m "" = .error .invalidKey ∧
    (mapGet m key = none →
      MemoryTimeCapsule.Open ctx now2 m key = .error .capsuleNotFound) ∧
    (∀ cap, mapGet m key = some cap → now2 < cap.unlockTime →
      MemoryTimeCapsule.Open ctx now2 m key = .error .capsuleLocked) := by
  refine ⟨?_, ?_, ?_, ?_⟩
  · intro hu
    have hnl : ¬ now2 < u := not_lt.mpr hu
    have hset : (MemoryTimeCapsule.Store ctx tStore m key v u).2
        = mapSet m key ⟨v, u, tStore⟩ := by
      simp [MemoryTimeCapsule.Store, hctx, hk]
    rw [hset]
    simp [MemoryTimeCapsule.Open, hctx, hk, mapGet_mapSet_self, hnl]
  · simp [MemoryTimeCapsule.Open, hctx]
  · intro hget
    simp [MemoryTimeCapsule.Open, hctx, hk, hget]
  · intro cap hget hlt
    simp [MemoryTimeCapsule.Open, hctx, hk, hget, hlt]

/-- Concrete run of C1: a value stored at time 0 with unlock time 10 is
returned exactly by `Open` at time 10. -/
theorem C1_witness :
    MemoryTimeCapsule.Open ⟨false⟩ 10
        (MemoryTimeCapsule.Store ⟨false⟩ 0 ([] : CapsuleMap Nat) "k" 42 10).2 "k"
      = .ok 42 :=
  (C1_open_store_roundtrip ⟨false⟩ 0 10 10 [] "k" 42 rfl (by decide)).1
    (by decide)

/-- C2: `Delay(k, d)` on an existing record replaces its unlock time with
`now + d`, computed from the call's current time and independent of the
previous unlock time; two successive Delay calls are not cumulative — the
second leaves unlock time `now2 + d2`, not `now1 + d1 + d2` and not
`u + d1 + d2`. -/
theorem C2_delay_resets_from_now {T : Type} (ctx : Ctx) (now1 now2 d1 d2 : Int)
    (m : CapsuleMap T) (key : String) (cap : Capsule T)
    (hctx : ctx.canceled = false) (hk : key ≠ "")
    (hget : mapGet m key = some cap) :
    mapGet (MemoryTimeCapsule.Delay ctx now1 m key d1).2 key
      = some ⟨cap.value, now1 + d1, cap.createdAt⟩ ∧
    mapGet (MemoryTimeCapsule.Delay ctx now2
        (MemoryTimeCapsule.Delay ctx now1 m key d1).2 key d2).2 key
      = some ⟨cap.value, now2 + d2, cap.createdAt⟩ := by
  have h1 := memDelay_found ctx now1 d1 m key cap hctx hk hget
  have hget1 : mapGet (MemoryTimeCapsule.Delay ctx now1 m key d1).2 key
      = some ⟨cap.value, now1 + d1, cap.createdAt⟩ := by
    rw [h1]
    exact mapGet_mapSet_self _ _ _
  refine ⟨hget1, ?_⟩
  have h2 := memDelay_found ctx now2 d2
    (MemoryTimeCapsule.Delay ctx now1 m key d1).2 key
    ⟨cap.value, now1 + d1, cap.createdAt⟩ hctx hk hget1
  rw [h2]
  exact mapGet_mapSet_self _ _ _

/-- Concrete run of C2: stored with unlock time 100, delayed at time 1 by 50
and again at time 2 by 70, the record ends with unlock time 72 = 2 + 70,
not 100 + 50 + 70 and not 51 + 70. -/
theorem C2_witness :
    mapGet (MemoryTimeCapsule.Delay ⟨false⟩ 2
        (MemoryTimeCapsule.Delay ⟨false⟩ 1
          [("k", (⟨42, 100, 0⟩ : Capsule Nat))] "k" 50).2 "k" 70).2 "k"
      = some ⟨42, 72, 0⟩ :=
  (C2_delay_resets_from_now ⟨false⟩ 1 2 50 70
    [("k", (⟨42, 100, 0⟩ : Capsule Nat))] "k" ⟨42, 100, 0⟩
    rfl (by decide) rfl).2

/-- C4: `Store` is an unconditional upsert — two successive `Store` calls on
the same key leave exactly one record, holding the second value, the second
unlock time and a creation time equal to the second call's time. -/
theorem C4_store_upsert {T : Type} (ctx : Ctx) (t1 t2 u1 u2 : Int)
    (m : CapsuleMap T) (key : String) (v1 v2 : T)
    (hctx : ctx.canceled = false) (hk : key ≠ "")
    (hwf : countKey m key ≤ 1) :
    mapGet (MemoryTimeCapsule.Store ctx t2
        (MemoryTimeCapsule.Store ctx t1 m key v1 u1).2 key v2 u2).2 key
      = some ⟨v2, u2, t2⟩ ∧
    countKey (MemoryTimeCapsule.Store ctx t2
        (MemoryTimeCapsule.Store ctx t1 m key v1 u1).2 key v2 u2).2 key
      = 1 := by
  have hs1 : (MemoryTimeCapsule.Store ctx t1 m key v1 u1).2
      = mapSet m key ⟨v1, u1, t1⟩ := by
    simp [MemoryTimeCapsule.Store, hctx, hk]
  have hs2 : (MemoryTimeCapsule.Store ctx t2
        (MemoryTimeCapsule.Store ctx t1 m key v1 u1).2 key v2 u2).2
      = mapSet (mapSet m key ⟨v1, u1, t1⟩) key ⟨v2, u2, t2⟩ := by
    rw [hs1]
    simp [MemoryTimeCapsule.Store, hctx, hk]
  rw [hs2]
  exact ⟨mapGet_mapSet_self _ _ _,
    countKey_mapSet _ _ _ (le_of_eq (countKey_mapSet _ _ _ hwf))⟩

/-- Concrete run of C4: storing twice under "k" leaves one record carrying
the second value, unlock time and creation time. -/
theorem C4_witness :
    mapGet (MemoryTimeCapsule.Store ⟨false⟩ 7
        (MemoryTimeCapsule.Store ⟨false⟩ 3 ([] : CapsuleMap Nat)
          "k" 1 10).2 "k" 2 20).2 "k"
      = some ⟨2, 20, 7⟩ ∧
    countKey (MemoryTimeCapsule.Store ⟨false⟩ 7
        (MemoryTimeCapsule.Store ⟨false⟩ 3 ([] : CapsuleMap Nat)
          "k" 1 10).2 "k" 2 20).2 "k" = 1 :=
  C4_store_upsert ⟨false⟩ 3 7 10 20 [] "k" 1 2 rfl (by decide) (by decide)

/-- C6: `Peek` on an existing record reports exactly its unlock time and
creation time with `isLocked = (now < unlockTime)` recomputed from the
call's current time; it fails with `InvalidKey` on the empty key and
`CapsuleNotFound` on an absent key, never fails with `CapsuleLocked` for any
input, and its result is independent of the stored value (the metadata
expression does not mention it). -/
theorem C6_peek_metadata {T : Type} (ctx : Ctx) (now u cAt : Int)
    (m : CapsuleMap T) (key : String) (cap : Capsule T) (v2 : T)
    (hctx : ctx.canceled = false) (hk : key ≠ "") :
    (mapGet m key = some cap →
      MemoryTimeCapsule.Peek ctx now m key
        = .ok ⟨cap.unlockTime, cap.createdAt, decide (now < cap.unlockTime)⟩) ∧
    MemoryTimeCapsule.Peek (T := T) ctx now m "" = .error .invalidKey ∧
    (mapGet m key = none →
      MemoryTimeCapsule.Peek ctx now m key = .error .capsuleNotFound) ∧
    (∀ (ctx2 : Ctx) (now2 : Int) (m2 : CapsuleMap T) (key2 : String),
      MemoryTimeCapsule.Peek ctx2 now2 m2 key2 ≠ .error .capsuleLocked) ∧
    MemoryTimeCapsule.Peek ctx now (mapSet m key ⟨v2, u, cAt⟩) key
      = .ok ⟨u, cAt, decide (now < u)⟩ := by
  refine ⟨?_, ?_, ?_, ?_, ?_⟩
  · intro hget
    simp [MemoryTimeCapsule.Peek, hctx, hk, hget]
  · simp [MemoryTimeCapsule.Peek, hctx]
  · intro hget
    simp [MemoryTimeCapsule.Peek, hctx, hk, hget]
  · intro ctx2 now2 m2 key2 h
    by_cases hc : ctx2.canceled
    · simp [MemoryTimeCapsule.Peek, hc] at h
    · by_cases hk2 : key2 = ""
      · simp [MemoryTimeCapsule.Peek, hc, hk2] at h
      · rcases hget : mapGet m2 key2 with _ | cap2 <;>
          simp [MemoryTimeCapsule.Peek, hc, hk2, hget] at h
  · simp [MemoryTimeCapsule.Peek, hctx, hk, mapGet_mapSet_self]

/-- Concrete run of C6: peeking a record stored with unlock time 10 at time 3
reports it locked with the stored times and no value. -/
theorem C6_witness :
    MemoryTimeCapsule.Peek ⟨false⟩ 3
        [("k", (⟨42, 10, 1⟩ : Capsule Nat))] "k"
      = .ok ⟨10, 1, true⟩ :=
  (C6_peek_metadata ⟨false⟩ 3 0 0 [("k", (⟨42, 10, 1⟩ : Capsule Nat))]
    "k" ⟨42, 10, 1⟩ 0 rfl (by decide)).1 rfl

/-- A backend-delegating `Delay` on an existing, unlocked record succeeds and
re-stores the bytes under `now + delay`, with `createdAt` reset to `now` by
the backend store. -/
theorem ptcDelay_found_unlocked {B : Type} (ctx : Ctx) (now d : Int)
    (s : CapsuleMap B) (key : String) (bcap : Capsule B)
    (hctx : ctx.canceled = false) (hk : key ≠ "")
    (hget : mapGet s key = some bcap) (hu : ¬ now < bcap.unlockTime) :
    PersistentTimeCapsule.Delay ctx now s key d
      = (.ok (), mapSet s key ⟨bcap.value, now + d, now⟩) := by
  simp [PersistentTimeCapsule.Delay, SpecStorage.Peek, SpecStorage.Open,
    SpecStorage.Store, MemoryTimeCapsule.Peek, MemoryTimeCapsule.Open,
    MemoryTimeCapsule.Store, hctx, hk, hget, hu]

/-- A backend-delegating `Delay` on an existing, still-locked record fails
with `CapsuleLocked`: the existence peek succeeds, but reading the current
bytes goes through the backend open, which only succeeds on an unlocked
capsule. -/
theorem ptcDelay_found_locked {B : Type} (ctx : Ctx) (now d : Int)
    (s : CapsuleMap B) (key : String) (bcap : Capsule B)
    (hctx : ctx.canceled = false) (hk : key ≠ "")
    (hget : mapGet s key = some bcap) (hu : now < bcap.unlockTime) :
    PersistentTimeCapsule.Delay ctx now s key d
      = (.error .capsuleLocked, s) := by
  simp [PersistentTimeCapsule.Delay, SpecStorage.Peek, SpecStorage.Open,
    MemoryTimeCapsule.Peek, MemoryTimeCapsule.Open, hctx, hk, hget, hu]

/-- C5 counterexample: the backend-delegating `Delay` does not preserve
`createdAt`.  At time 5, delaying the record stored under "k" with creation
time 0 succeeds (the record is unlocked), yet afterwards the record's
creation time is 5, not 0. -/
theorem C5_delay_frame_cex :
    (PersistentTimeCapsule.Delay ⟨false⟩ 5
        [("k", (⟨[7], 0, 0⟩ : Capsule (List Nat)))] "k" 3).1 = .ok () ∧
    ¬ (mapGet (PersistentTimeCapsule.Delay ⟨false⟩ 5
          [("k", (⟨[7], 0, 0⟩ : Capsule (List Nat)))] "k" 3).2 "k").map
        Capsule.createdAt
      = (mapGet [("k", (⟨[7], 0, 0⟩ : Capsule (List Nat)))] "k").map
        Capsule.createdAt := by
  refine ⟨rfl, ?_⟩
  decide

/-- C5 (amended): a successful `Delay` on the in-memory store changes only
the record's unlock time — value and creation time are preserved and no
other key is affected.  For the backend-delegating store, a successful
`Delay` (which requires the record to be unlocked) preserves the stored
bytes and affects no other key, but resets the record's `createdAt` to the
time of the Delay call, because the backend re-store sets `createdAt` to
the current time. -/
theorem C5_delay_frame_amended {T B : Type} (ctx : Ctx) (now d : Int)
    (m : CapsuleMap T) (s : CapsuleMap B) (key k2 : String)
    (cap : Capsule T) (bcap : Capsule B)
    (hctx : ctx.canceled = false) (hk : key ≠ "") (h2 : k2 ≠ key) :
    (mapGet m key = some cap →
      mapGet (MemoryTimeCapsule.Delay ctx now m key d).2 key
        = some ⟨cap.value, now + d, cap.createdAt⟩ ∧
      mapGet (MemoryTimeCapsule.Delay ctx now m key d).2 k2 = mapGet m k2) ∧
    (mapGet s key = some bcap → ¬ now < bcap.unlockTime →
      (PersistentTimeCapsule.Delay ctx now s key d).1 = .ok () ∧
      mapGet (PersistentTimeCapsule.Delay ctx now s key d).2 key
        = some ⟨bcap.value, now + d, now⟩ ∧
      mapGet (PersistentTimeCapsule.Delay ctx now s key d).2 k2
        = mapGet s k2) := by
  constructor
  · intro hget
    rw [memDelay_found ctx now d m key cap hctx hk hget]
    exact ⟨mapGet_mapSet_self _ _ _, mapGet_mapSet_ne _ _ _ _ h2⟩
  · intro hget hu
    rw [ptcDelay_found_unlocked ctx now d s key bcap hctx hk hget hu]
    exact ⟨rfl, mapGet_mapSet_self _ _ _, mapGet_mapSet_ne _ _ _ _ h2⟩

/-- Concrete run of amended C5: the in-memory Delay keeps value and creation
time and does not touch the other key; the persistent Delay keeps the bytes
and the other key but carries the new creation time 5. -/
theorem C5_witness :
    mapGet (MemoryTimeCapsule.Delay ⟨false⟩ 5
        [("k", (⟨42, 10, 1⟩ : Capsule Nat)), ("j", ⟨9, 3, 2⟩)] "k" 30).2 "k"
      = some ⟨42, 35, 1⟩ ∧
    mapGet (MemoryTimeCapsule.Delay ⟨false⟩ 5
        [("k", (⟨42, 10, 1⟩ : Capsule Nat)), ("j", ⟨9, 3, 2⟩)] "k" 30).2 "j"
      = mapGet [("k", (⟨42, 10, 1⟩ : Capsule Nat)), ("j", ⟨9, 3, 2⟩)] "j" :=
  (C5_delay_frame_amended (B := List Nat) ⟨false⟩ 5 30
    [("k", (⟨42, 10, 1⟩ : Capsule Nat)), ("j", ⟨9, 3, 2⟩)] []
    "k" "j" ⟨42, 10, 1⟩ ⟨[], 0, 0⟩ rfl (by decide) (by decide)).1 rfl

/-- C7 counterexample: with the non-empty key "k" and a non-cancelled
context, the backend-delegating `Delay` at time 5 on a record locked until
time 10 fails with `CapsuleLocked` — an error the claim says `Delay` never
returns. -/
theorem C7_delay_errors_cex :
    ("k" ≠ "") ∧ ((⟨false⟩ : Ctx).canceled = false) ∧
    (PersistentTimeCapsule.Delay ⟨false⟩ 5
        [("k", (⟨[7], 10, 0⟩ : Capsule (List Nat)))] "k" 3).1
      = .error .capsuleLocked := by
  refine ⟨by decide, rfl, rfl⟩

/-- C7 (amended): with a non-empty key and non-cancelled context, the
in-memory `Delay` either succeeds or fails with `CapsuleNotFound`.  The
backend-delegating `Delay` either succeeds, fails with `CapsuleNotFound`,
or fails with `CapsuleLocked` — the latter exactly when a record exists
under the key but is still locked, because reading the current bytes goes
through the backend open, which only succeeds on an unlocked capsule. -/
theorem C7_delay_errors_amended {T B : Type} (ctx : Ctx) (now d : Int)
    (m : CapsuleMap T) (s : CapsuleMap B) (key : String)
    (hctx : ctx.canceled = false) (hk : key ≠ "") :
    ((MemoryTimeCapsule.Delay ctx now m key d).1 = .ok () ∨
     (MemoryTimeCapsule.Delay ctx now m key d).1 = .error .capsuleNotFound) ∧
    ((PersistentTimeCapsule.Delay ctx now s key d).1 = .ok () ∨
     (PersistentTimeCapsule.Delay ctx now s key d).1
        = .error .capsuleNotFound ∨
     ((PersistentTimeCapsule.Delay ctx now s key d).1
        = .error .capsuleLocked ∧
      ∃ bcap, mapGet s key = some bcap ∧ now < bcap.unlockTime)) ∧
    (∀ bcap, mapGet s key = some bcap → now < bcap.unlockTime →
      (PersistentTimeCapsule.Delay ctx now s key d).1
        = .error .capsuleLocked) := by
  refine ⟨?_, ?_, ?_⟩
  · rcases hget : mapGet m key with _ | cap
    · right
      simp [MemoryTimeCapsule.Delay, hctx, hk, hget]
    · left
      simp [MemoryTimeCapsule.Delay, hctx, hk, hget]
  · rcases hget : mapGet s key with _ | bcap
    · right
      left
      simp [PersistentTimeCapsule.Delay, SpecStorage.Peek,
        MemoryTimeCapsule.Peek, hctx, hk, hget]
    · by_cases hlt : now < bcap.unlockTime
      · right
        right
        rw [ptcDelay_found_locked ctx now d s key bcap hctx hk hget hlt]
        exact ⟨rfl, ⟨bcap, rfl, hlt⟩⟩
      · left
        rw [ptcDelay_found_unlocked ctx now d s key bcap hctx hk hget hlt]
  · intro bcap hget hlt
    rw [ptcDelay_found_locked ctx now d s key bcap hctx hk hget hlt]

/-- Concrete run of amended C7: delaying a missing key fails with
`CapsuleNotFound` on the in-memory store. -/
theorem C7_witness :
    (MemoryTimeCapsule.Delay ⟨false⟩ 5 ([] : CapsuleMap Nat) "k" 3).1
        = .ok () ∨
    (MemoryTimeCapsule.Delay ⟨false⟩ 5 ([] : CapsuleMap Nat) "k" 3).1
        = .error .capsuleNotFound :=
  (C7_delay_errors_amended (B := List Nat) ⟨false⟩ 5 3 [] [] "k"
    rfl (by decide)).1

/-- C8: under an already-cancelled context, every operation of both store
variants returns the context's cancellation error (`false` for `Exists`)
and returns the key-to-record mapping exactly as it was — no record is
created, modified or removed. -/
theorem C8_cancelled_ctx_noop {T B : Type} (cd : Codec T B) (now u d : Int)
    (m mW : CapsuleMap T) (s sW : CapsuleMap B) (key : String) (v : T)
    (cw : Bool) :
    MemoryTimeCapsule.Store ⟨true⟩ now m key v u
      = (.error .contextCanceled, m) ∧
    MemoryTimeCapsule.Open ⟨true⟩ now m key
      = (.error .contextCanceled : Except TCError T) ∧
    MemoryTimeCapsule.Peek (T := T) ⟨true⟩ now m key
      = .error .contextCanceled ∧
    MemoryTimeCapsule.Delay ⟨true⟩ now m key d
      = (.error .contextCanceled, m) ∧
    MemoryTimeCapsule.Delete ⟨true⟩ m key = (.error .contextCanceled, m) ∧
    MemoryTimeCapsule.Exists ⟨true⟩ m key = false ∧
    MemoryTimeCapsule.WaitForUnlock ⟨true⟩ now m key cw mW
      = (.error .contextCanceled : Except TCError T) ∧
    PersistentTimeCapsule.Store cd ⟨true⟩ now s key v u
      = (.error .contextCanceled, s) ∧
    PersistentTimeCapsule.Open cd ⟨true⟩ now s key
      = (.error .contextCanceled : Except TCError T) ∧
    PersistentTimeCapsule.Peek ⟨true⟩ now s key = .error .contextCanceled ∧
    PersistentTimeCapsule.Delay ⟨true⟩ now s key d
      = (.error .contextCanceled, s) ∧
    PersistentTimeCapsule.Delete ⟨true⟩ s key
      = (.error .contextCanceled, s) ∧
    PersistentTimeCapsule.Exists ⟨true⟩ s key = false ∧
    PersistentTimeCapsule.WaitForUnlock cd ⟨true⟩ now s key cw sW
      = (.error .contextCanceled : Except TCError T) :=
  ⟨rfl, rfl, rfl, rfl, rfl, rfl, rfl, rfl, rfl, rfl, rfl, rfl, rfl, rfl⟩

/-- C9: `Exists` never signals failure — it is `true` exactly when the
context is not cancelled, the key is non-empty, and a record is present
under the key, in both store variants.  `Exists` takes no clock input at
all, so lock state cannot influence it. -/
theorem C9_exists_no_failure {T B : Type} (ctx : Ctx) (m : CapsuleMap T)
    (s : CapsuleMap B) (key : String) :
    (MemoryTimeCapsule.Exists ctx m key = true ↔
      ctx.canceled = false ∧ key ≠ "" ∧ (mapGet m key).isSome = true) ∧
    (PersistentTimeCapsule.Exists ctx s key = true ↔
      ctx.canceled = false ∧ key ≠ "" ∧ (mapGet s key).isSome = true) := by
  constructor
  · by_cases hc : ctx.canceled <;> by_cases hk : key = "" <;>
      simp [MemoryTimeCapsule.Exists, hc, hk]
  · by_cases hc : ctx.canceled <;> by_cases hk : key = "" <;>
      simp [PersistentTimeCapsule.Exists, SpecStorage.IsStored,
        MemoryTimeCapsule.Exists, hc, hk]

/-- C10: the cancellation check precedes key validation — every operation
called with the empty key under an already-cancelled context returns the
cancellation error (`false` for `Exists`), which is a different error from
`InvalidKey`. -/
theorem C10_cancel_precedes_key_check {T B : Type} (cd : Codec T B)
    (now u d : Int) (m mW : CapsuleMap T) (s sW : CapsuleMap B) (v : T)
    (cw : Bool) :
    MemoryTimeCapsule.Store ⟨true⟩ now m "" v u
      = (.error .contextCanceled, m) ∧
    MemoryTimeCapsule.Open ⟨true⟩ now m ""
      = (.error .contextCanceled : Except TCError T) ∧
    MemoryTimeCapsule.Peek (T := T) ⟨true⟩ now m ""
      = .error .contextCanceled ∧
    MemoryTimeCapsule.Delay ⟨true⟩ now m "" d
      = (.error .contextCanceled, m) ∧
    MemoryTimeCapsule.Delete ⟨true⟩ m "" = (.error .contextCanceled, m) ∧
    MemoryTimeCapsule.Exists ⟨true⟩ m "" = false ∧
    MemoryTimeCapsule.WaitForUnlock ⟨true⟩ now m "" cw mW
      = (.error .contextCanceled : Except TCError T) ∧
    PersistentTimeCapsule.Store cd ⟨true⟩ now s "" v u
      = (.error .contextCanceled, s) ∧
    PersistentTimeCapsule.Open cd ⟨true⟩ now s ""
      = (.error .contextCanceled : Except TCError T) ∧
    PersistentTimeCapsule.Peek ⟨true⟩ now s "" = .error .contextCanceled ∧
    PersistentTimeCapsule.Delay ⟨true⟩ now s "" d
      = (.error .contextCanceled, s) ∧
    PersistentTimeCapsule.Delete ⟨true⟩ s "" = (.error .contextCanceled, s) ∧
    PersistentTimeCapsule.Exists ⟨true⟩ s "" = false ∧
    PersistentTimeCapsule.WaitForUnlock cd ⟨true⟩ now s "" cw sW
      = (.error .contextCanceled : Except TCError T) ∧
    TCError.contextCanceled ≠ TCError.invalidKey :=
  ⟨rfl, rfl, rfl, rfl, rfl, rfl, rfl, rfl, rfl, rfl, rfl, rfl, rfl, rfl,
    by decide⟩

/-- A successful backend-delegating `Peek` is exactly a successful backend
peek (the wrapper's context and key checks must have passed). -/
theorem ptcPeek_ok {B : Type} {ctx : Ctx} {now : Int} {s : CapsuleMap B}
    {key : String} {md : Metadata}
    (h : PersistentTimeCapsule.Peek ctx now s key = .ok md) :
    MemoryTimeCapsule.Peek ctx now s key = .ok md := by
  by_cases hc : ctx.canceled
  · simp [PersistentTimeCapsule.Peek, hc] at h
  · by_cases hk : key = ""
    · simp [PersistentTimeCapsule.Peek, hc, hk] at h
    · simpa [PersistentTimeCapsule.Peek, SpecStorage.Peek, hc, hk] using h

/-- C3: `WaitForUnlock` makes at most one wait attempt, in both store
variants.  An already-cancelled context fails immediately; a `Peek` error is
returned immediately; an unlocked peek result leads immediately to `Open` on
the pre-wait map; otherwise the call waits once (losing to cancellation
yields the cancellation error) and then returns the result of a single
`Open` at the snapshotted unlock time against the map as it stands at wake —
so a record deleted during the wait surfaces as `CapsuleNotFound` and one
delayed past the snapshot surfaces as `CapsuleLocked`, with no re-wait. -/
theorem C3_waitForUnlock_single_attempt {T B : Type} (cd : Codec T B)
    (ctx : Ctx) (now : Int) (m0 mWake : CapsuleMap T) (s0 sWake : CapsuleMap B)
    (key : String) (cw : Bool) (md : Metadata) (e : TCError)
    (cap : Capsule T) :
    (ctx.canceled = true →
      MemoryTimeCapsule.WaitForUnlock ctx now m0 key cw mWake
          = .error .contextCanceled ∧
      PersistentTimeCapsule.WaitForUnlock cd ctx now s0 key cw sWake
          = .error .contextCanceled) ∧
    (MemoryTimeCapsule.Peek ctx now m0 key = .error e →
      MemoryTimeCapsule.WaitForUnlock ctx now m0 key cw mWake = .error e) ∧
    (MemoryTimeCapsule.Peek ctx now m0 key = .ok md → md.isLocked = false →
      MemoryTimeCapsule.WaitForUnlock ctx now m0 key cw mWake
        = MemoryTimeCapsule.Open ctx now m0 key) ∧
    (MemoryTimeCapsule.Peek ctx now m0 key = .ok md → md.isLocked = true →
      cw = true →
      MemoryTimeCapsule.WaitForUnlock ctx now m0 key cw mWake
        = .error .contextCanceled) ∧
    (MemoryTimeCapsule.Peek ctx now m0 key = .ok md → md.isLocked = true →
      cw = false →
      MemoryTimeCapsule.WaitForUnlock ctx now m0 key cw mWake
        = MemoryTimeCapsule.Open ctx md.unlockTime mWake key) ∧
    (MemoryTimeCapsule.Peek ctx now m0 key = .ok md → md.isLocked = true →
      cw = false → mapGet mWake key = none →
      MemoryTimeCapsule.WaitForUnlock ctx now m0 key cw mWake
        = .error .capsuleNotFound) ∧
    (MemoryTimeCapsule.Peek ctx now m0 key = .ok md → md.isLocked = true →
      cw = false → mapGet mWake key = some cap →
      md.unlockTime < cap.unlockTime →
      MemoryTimeCapsule.WaitForUnlock ctx now m0 key cw mWake
        = .error .capsuleLocked) ∧
    (PersistentTimeCapsule.Peek ctx now s0 key = .error e →
      PersistentTimeCapsule.WaitForUnlock cd ctx now s0 key cw sWake
        = .error e) ∧
    (PersistentTimeCapsule.Peek ctx now s0 key = .ok md →
      md.isLocked = false →
      PersistentTimeCapsule.WaitForUnlock cd ctx now s0 key cw sWake
        = PersistentTimeCapsule.Open cd ctx now s0 key) ∧
    (PersistentTimeCapsule.Peek ctx now s0 key = .ok md →
      md.isLocked = true → cw = true →
      PersistentTimeCapsule.WaitForUnlock cd ctx now s0 key cw sWake
        = .error .contextCanceled) ∧
    (PersistentTimeCapsule.Peek ctx now s0 key = .ok md →
      md.isLocked = true → cw = false →
      PersistentTimeCapsule.WaitForUnlock cd ctx now s0 key cw sWake
        = PersistentTimeCapsule.Open cd ctx md.unlockTime sWake key) ∧
    (PersistentTimeCapsule.Peek ctx now s0 key = .ok md →
      md.isLocked = true → cw = false → mapGet sWake key = none →
      PersistentTimeCapsule.WaitForUnlock cd ctx now s0 key cw sWake
        = .error .capsuleNotFound) := by
  refine ⟨?_, ?_, ?_, ?_, ?_, ?_, ?_, ?_, ?_, ?_, ?_, ?_⟩
  · intro hc
    constructor <;>
      simp [MemoryTimeCapsule.WaitForUnlock,
        PersistentTimeCapsule.WaitForUnlock, hc]
  · intro hP
    by_cases hc : ctx.canceled
    · simp [MemoryTimeCapsule.Peek, hc] at hP
      subst hP
      simp [MemoryTimeCapsule.WaitForUnlock, hc]
    · simp [MemoryTimeCapsule.WaitForUnlock, hc, hP]
  · intro hP hL
    have hc := memPeek_ok_ctx hP
    simp [MemoryTimeCapsule.WaitForUnlock, hc, hP, hL]
  · intro hP hL hcw
    have hc := memPeek_ok_ctx hP
    simp [MemoryTimeCapsule.WaitForUnlock, hc, hP, hL, hcw]
  · intro hP hL hcw
    have hc := memPeek_ok_ctx hP
    simp [MemoryTimeCapsule.WaitForUnlock, hc, hP, hL, hcw]
  · intro hP hL hcw hnone
    have hc := memPeek_ok_ctx hP
    have hkey := memPeek_ok_key hP
    simp [MemoryTimeCapsule.WaitForUnlock, MemoryTimeCapsule.Open, hc, hP,
      hL, hcw, hkey, hnone]
  · intro hP hL hcw hget hlt
    have hc := memPeek_ok_ctx hP
    have hkey := memPeek_ok_key hP
    simp [MemoryTimeCapsule.WaitForUnlock, MemoryTimeCapsule.Open, hc, hP,
      hL, hcw, hkey, hget, hlt]
  · intro hP
    by_cases hc : ctx.canceled
    · simp [PersistentTimeCapsule.Peek, hc] at hP
      subst hP
      simp [PersistentTimeCapsule.WaitForUnlock, hc]
    · simp [PersistentTimeCapsule.WaitForUnlock, hc, hP]
  · intro hP hL
    have hc := memPeek_ok_ctx (ptcPeek_ok hP)
    simp [PersistentTimeCapsule.WaitForUnlock, hc, hP, hL]
  · intro hP hL hcw
    have hc := memPeek_ok_ctx (ptcPeek_ok hP)
    simp [PersistentTimeCapsule.WaitForUnlock, hc, hP, hL, hcw]
  · intro hP hL hcw
    have hc := memPeek_ok_ctx (ptcPeek_ok hP)
    simp [PersistentTimeCapsule.WaitForUnlock, hc, hP, hL, hcw]
  · intro hP hL hcw hnone
    have hc := memPeek_ok_ctx (ptcPeek_ok hP)
    have hkey := memPeek_ok_key (ptcPeek_ok hP)
    simp [PersistentTimeCapsule.WaitForUnlock, PersistentTimeCapsule.Open,
      SpecStorage.Open, MemoryTimeCapsule.Open, hc, hP, hL, hcw, hkey, hnone]

/-- Concrete run of C3: a capsule locked until time 10 is waited on from
time 0 and deleted during the wait; the single post-wait `Open` surfaces
`CapsuleNotFound` — no re-wait. -/
theorem C3_witness :
    MemoryTimeCapsule.WaitForUnlock ⟨false⟩ 0
        [("k", (⟨42, 10, 0⟩ : Capsule Nat))] "k" false []
      = .error .capsuleNotFound :=
  (C3_waitForUnlock_single_attempt natCodec ⟨false⟩ 0
    [("k", (⟨42, 10, 0⟩ : Capsule Nat))] [] [] [] "k" false
    ⟨10, 0, true⟩ .capsuleNotFound ⟨42, 10, 0⟩).2.2.2.2.2.1
    rfl rfl rfl rfl

end TimeCapsule
